import Mathlib

/-!
Verification of the video-transcriber core (`src/video-transcriber.py`).

The Python source is shallowly embedded below: fractional seconds are
modelled as exact rationals, Python strings as Lean `String`/`List Char`,
the filesystem as a partial map from paths to file contents, and the two
external collaborators (the ffmpeg subprocess and the Whisper model) as
oracles carried in an `Env` record.  Paths are modelled as canonical
absolute strings, so `os.path.abspath` is the identity on them.
-/

namespace VT

/-- Decimal digit character for a single digit value, used to model Python's
built-in decimal rendering of integers. -/
def digitChar : Nat → Char
  | 0 => '0'
  | 1 => '1'
  | 2 => '2'
  | 3 => '3'
  | 4 => '4'
  | 5 => '5'
  | 6 => '6'
  | 7 => '7'
  | 8 => '8'
  | _ => '9'

/-- Fuel-driven accumulator loop producing the decimal digits of a natural
number (most significant first); the fuel is always sufficient at call sites. -/
def natDigitsAux : Nat → Nat → List Char → List Char
  | 0, _, acc => acc
  | fuel + 1, n, acc =>
    if n < 10 then digitChar n :: acc
    else natDigitsAux fuel (n / 10) (digitChar (n % 10) :: acc)

/-- Decimal digit list of a natural number. -/
def natDigits (n : Nat) : List Char := natDigitsAux (n + 1) n []

/-- Decimal string of a natural number; models Python `str(n)` / `f"{n}"` for
`n ≥ 0`. -/
def natStr (n : Nat) : String := String.mk (natDigits n)

/-- Zero padding to a given width; models Python's format spec `0Nd` on
non-negative values (e.g. `f"{n:02d}"`). -/
def padNat (w n : Nat) : List Char :=
  List.replicate (w - (natDigits n).length) '0' ++ natDigits n

/-- One step of reading a decimal number: shift the accumulator and add the
digit value of the next character. -/
def digitStep (a : Nat) (c : Char) : Nat := 10 * a + (c.toNat - 48)

/-- Numeric value of a list of decimal digit characters. -/
def digitsVal (ds : List Char) : Nat := ds.foldl digitStep 0

/-- Truncation toward zero, modelling Python's `int()` applied to a number. -/
def pyInt (q : ℚ) : ℤ := if q < 0 then -⌊-q⌋ else ⌊q⌋

/-- Python's floor-mod `a % b` on numbers, as used by `seconds %= 3600`. -/
def pyMod (a b : ℚ) : ℚ := a - b * ⌊a / b⌋

/-- Zero-padded rendering of an integer, modelling Python's `f"{n:0Nd}"`
(negative values carry a leading sign, as in Python). -/
def padInt (w : Nat) (n : ℤ) : List Char :=
  if n < 0 then '-' :: padNat (w - 1) n.natAbs else padNat w n.toNat

/-- Shallow embedding of `VideoTranscriber._format_timestamp`: convert
fractional seconds to the SRT timestamp text `HH:MM:SS,mmm`.  Python's float
value is modelled as an exact rational; `//` and `%` are floor operations and
`int()` truncates toward zero, exactly as in Python. -/
def format_timestamp (seconds : ℚ) : String :=
  let hours : ℤ := ⌊seconds / 3600⌋
  let s1 : ℚ := pyMod seconds 3600
  let minutes : ℤ := ⌊s1 / 60⌋
  let s2 : ℚ := pyMod s1 60
  let milliseconds : ℤ := pyInt ((s2 - (pyInt s2 : ℚ)) * 1000)
  String.mk (padInt 2 hours ++ ':' :: padInt 2 minutes ++ ':' ::
    padInt 2 (pyInt s2) ++ ',' :: padInt 3 milliseconds)

/-- The character shape of a well-formed timestamp with the given non-negative
components. -/
def timestampChars (H M S MS : Nat) : List Char :=
  padNat 2 H ++ ':' :: padNat 2 M ++ ':' :: padNat 2 S ++ ',' :: padNat 3 MS

/-- Decides whether a character list matches the pattern
`\d\x7b2,\x7d:\d\x7b2\x7d:\d\x7b2\x7d,\d\x7b3\x7d` of an SRT timestamp line. -/
def isTimestampShape (cs : List Char) : Bool :=
  decide (2 ≤ (cs.takeWhile Char.isDigit).length) &&
  match cs.dropWhile Char.isDigit with
  | ':' :: a :: b :: ':' :: c :: d :: ',' :: e :: f :: g :: [] =>
      a.isDigit && b.isDigit && c.isDigit && d.isDigit &&
      e.isDigit && f.isDigit && g.isDigit
  | _ => false

/-- Reads a timestamp string back into a rational number of seconds. -/
def parseTimestamp (cs : List Char) : ℚ :=
  match cs.dropWhile Char.isDigit with
  | ':' :: a :: b :: ':' :: c :: d :: ',' :: e :: f :: g :: [] =>
      (digitsVal (cs.takeWhile Char.isDigit) : ℚ) * 3600
        + (digitsVal [a, b] : ℚ) * 60 + (digitsVal [c, d] : ℚ)
        + (digitsVal [e, f, g] : ℚ) / 1000
  | _ => 0

/-- A time-aligned transcript segment as produced by the model: start and stop
times in fractional seconds and the raw (untrimmed) segment text. -/
structure Segment where
  start : ℚ
  stop : ℚ
  text : String

/-- Python's `str.strip()`: remove leading and trailing whitespace. -/
def pyStrip (s : String) : String :=
  String.mk (((s.data.dropWhile Char.isWhitespace).reverse.dropWhile
    Char.isWhitespace).reverse)

/-- One SRT block, exactly as the loop body of `transcribe_video` writes it:
the 1-based index line, the timing line, the stripped text, and a blank line. -/
def srt_block (i : Nat) (seg : Segment) : String :=
  natStr i ++ "\n" ++ format_timestamp seg.start ++ " --> " ++
    format_timestamp seg.stop ++ "\n" ++ pyStrip seg.text ++ "\n\n"

/-- The SRT text written for a segment list starting at a given index,
modelling the `enumerate(result["segments"], 1)` loop. -/
def renderFrom (i : Nat) : List Segment → String
  | [] => ""
  | seg :: rest => srt_block i seg ++ renderFrom (i + 1) rest

/-- Full SRT text for a segment list, with 1-based indices. -/
def render (segs : List Segment) : String := renderFrom 1 segs

/-- Concatenation of a list of strings (used to state structural facts about
`render`). -/
def strConcat (l : List String) : String := l.foldr (fun a b => a ++ b) ""

/-- Python's `str.lower()` on a single character, restricted to ASCII (all
extension letters compared by the source are ASCII). -/
def lowerChar (c : Char) : Char :=
  if 65 ≤ c.toNat ∧ c.toNat ≤ 90 then Char.ofNat (c.toNat + 32) else c

/-- Python's `str.lower()`. -/
def pyLower (s : String) : String := String.mk (s.data.map lowerChar)

/-- Python's `str.endswith`. -/
def pyEndsWith (s suffix : String) : Bool := suffix.data.isSuffixOf s.data

/-- Python's `str.startswith`. -/
def pyStartsWith (s t : String) : Bool := t.data.isPrefixOf s.data

/-- The recognized container extensions (`self.supported_extensions`). -/
def supported_extensions : List String :=
  [".mp4", ".avi", ".mov", ".mkv", ".webm", ".wmv", ".flv"]

/-- The file recognition test used by discovery and by the single-file mode:
`any(file.lower().endswith(ext) for ext in self.supported_extensions)`. -/
def is_video_file (file : String) : Bool :=
  supported_extensions.any (fun ext => pyEndsWith (pyLower file) ext)

/-- `os.path.basename`: the component after the last slash. -/
def pyBasename (p : String) : String :=
  String.mk ((p.data.reverse.takeWhile (fun c => c != '/')).reverse)

/-- `os.path.dirname`: everything before the last slash, with trailing slashes
stripped unless the result would be empty (CPython's behavior). -/
def pyDirname (p : String) : String :=
  let head := (p.data.reverse.dropWhile (fun c => c != '/')).reverse
  let stripped := (head.reverse.dropWhile (fun c => c == '/')).reverse
  String.mk (if stripped.isEmpty then head else stripped)

/-- Index (from the front) of the last `'.'` in the list, if any. -/
def lastDotIdx (cs : List Char) : Option Nat :=
  match cs.reverse.findIdx? (fun c => c == '.') with
  | some j => some (cs.length - 1 - j)
  | none => none

/-- The stem part of `os.path.splitext` applied to a basename: cut at the last
dot, except that leading dots never start an extension (CPython's rule). -/
def splitext_stem (name : String) : String :=
  let cs := name.data
  let lead := (cs.takeWhile (fun c => c == '.')).length
  match lastDotIdx cs with
  | some i => if lead ≤ i then String.mk (cs.take i) else name
  | none => name

/-- `os.path.join` for one directory and one name component. -/
def pyJoin (a b : String) : String :=
  if pyStartsWith b "/" = true then b
  else if a = "" ∨ pyEndsWith a "/" = true then a ++ b
  else a ++ "/" ++ b

/-- The filesystem, modelled as a partial map from paths to file contents. -/
def FS := String → Option String

/-- The empty filesystem. -/
def fsEmpty : FS := fun _ => none

/-- Writing a whole file in mode `'w'`: create or overwrite. -/
def fsWrite (fs : FS) (path content : String) : FS :=
  fun p => if p = path then some content else fs p

/-- `os.remove`. -/
def fsRemove (fs : FS) (path : String) : FS :=
  fun p => if p = path then none else fs p

/-- `os.path.exists`. -/
def fsExists (fs : FS) (path : String) : Bool := (fs path).isSome

/-- Outcome of one ffmpeg subprocess invocation: clean success, a non-zero
exit (possibly after writing a truncated destination file), or a failure to
launch the process at all (`FileNotFoundError`). -/
inductive FfmpegOutcome where
  | success
  | exitFail (halfWritten : Bool)
  | launchFail

/-- The Python exceptions that cross the embedded functions' boundaries. -/
inductive PyError where
  | calledProcessError
  | fileNotFoundError
  | inferenceError
deriving DecidableEq

/-- The dict returned by Whisper's `transcribe`: the full text plus the
`"segments"` entry when that key is present. -/
structure TResult where
  text : String
  segments : Option (List Segment)

/-- The external world: the temporary directory and the fresh name `mkstemp`
allocates, the decoder's behavior per (video, destination) pair, the model's
behavior per (audio, language) pair, and the `os.walk` enumeration. -/
structure Env where
  tempDir : String
  tempName : String
  ffmpegRun : String → String → FfmpegOutcome
  whisper : String → Option String → Option TResult
  walk : String → List (String × List String)

/-- The audio content ffmpeg produces at the destination on success. -/
def audioContent (video_path : String) : String := "audio:" ++ video_path

/-- The temporary path allocated by `tempfile.mkstemp(suffix='.wav')`. -/
def tmpPath (env : Env) : String := env.tempDir ++ "/" ++ env.tempName

/-- Shallow embedding of `VideoTranscriber.extract_audio`.  With no explicit
destination, `mkstemp` creates an empty temporary file.  On a non-zero exit the
`except subprocess.CalledProcessError` branch removes the destination if it
exists and re-raises; a launch failure (`FileNotFoundError`) is not caught. -/
def extract_audio (env : Env) (fs : FS) (video_path : String)
    (output_path : Option String) : FS × Except PyError String :=
  let st :=
    match output_path with
    | none => (fsWrite fs (tmpPath env) "", tmpPath env)
    | some p => (fs, p)
  let fs1 := st.1
  let dest := st.2
  match env.ffmpegRun video_path dest with
  | .success => (fsWrite fs1 dest (audioContent video_path), .ok dest)
  | .exitFail halfWritten =>
      let fs2 := if halfWritten then fsWrite fs1 dest "truncated-audio" else fs1
      let fs3 := if fsExists fs2 dest then fsRemove fs2 dest else fs2
      (fs3, .error .calledProcessError)
  | .launchFail => (fs1, .error .fileNotFoundError)

/-- Shallow embedding of `transcribe_audio`: the options dict carries the
language only when it is truthy (the empty string is falsy in Python), and the
model call either returns a result or raises. -/
def transcribe_audio (env : Env) (audio_path : String) (language : Option String) :
    Except PyError TResult :=
  let lang := match language with
    | some l => if l = "" then none else some l
    | none => none
  match env.whisper audio_path lang with
  | some r => .ok r
  | none => .error .inferenceError

/-- The video name: the stem of the path's basename. -/
def videoName (video_path : String) : String :=
  splitext_stem (pyBasename video_path)

/-- Output-directory resolution in `transcribe_video`: default to the video's
own containing directory. -/
def resolveOutDir (output_dir : Option String) (video_path : String) : String :=
  match output_dir with
  | some d => d
  | none => pyDirname video_path

/-- Output-directory resolution in `transcribe_directory`: default to the
input directory itself. -/
def resolveBatchOutDir (output_dir : Option String) (directory : String) : String :=
  match output_dir with
  | some d => d
  | none => directory

/-- Full-text output path `<outputDir>/<videoName>.txt`. -/
def txtPath (out_dir video_name : String) : String :=
  pyJoin out_dir (video_name ++ ".txt")

/-- Subtitle output path `<outputDir>/<videoName>.srt`. -/
def srtPath (out_dir video_name : String) : String :=
  pyJoin out_dir (video_name ++ ".srt")

/-- Retained-audio output path `<outputDir>/<videoName>.wav`. -/
def wavPath (out_dir video_name : String) : String :=
  pyJoin out_dir (video_name ++ ".wav")

/-- Shallow embedding of `VideoTranscriber.transcribe_video`: resolve the
output directory, extract audio (to `<outputDir>/<videoName>.wav` when
`keep_audio`, else to a fresh temporary path), transcribe, remove the audio
file when it is not kept and lies under the temporary directory, then write
the `.txt` file and — when the `"segments"` key is present — the `.srt` file.
There is no `try/finally`: an error at any step propagates immediately with
the filesystem as it stands at that point. -/
def transcribe_video (env : Env) (fs : FS) (video_path : String)
    (output_dir : Option String) (language : Option String) (keep_audio : Bool) :
    FS × Except PyError String :=
  let video_name := videoName video_path
  let out_dir := resolveOutDir output_dir video_path
  let dest : Option String :=
    if keep_audio then some (wavPath out_dir video_name) else none
  match extract_audio env fs video_path dest with
  | (fs1, .error e) => (fs1, .error e)
  | (fs1, .ok audio_path) =>
    match transcribe_audio env audio_path language with
    | .error e => (fs1, .error e)
    | .ok result =>
      let fs2 := if !keep_audio && pyStartsWith audio_path env.tempDir
        then fsRemove fs1 audio_path else fs1
      let transcription_path := txtPath out_dir video_name
      let fs3 := fsWrite fs2 transcription_path result.text
      let fs4 := match result.segments with
        | some segs => fsWrite fs3 (srtPath out_dir video_name) (render segs)
        | none => fs3
      (fs4, .ok transcription_path)

/-- File discovery in `transcribe_directory`: walk the tree and keep the
files whose lowercased name ends with a supported extension. -/
def discover_videos (env : Env) (directory : String) : List String :=
  (env.walk directory).flatMap
    (fun rf => (rf.2.filter is_video_file).map (fun file => pyJoin rf.1 file))

/-- Shallow embedding of `VideoTranscriber.transcribe_directory`: resolve the
output directory, discover the video files, return an empty list when none are
found, and otherwise process the files in order, catching each failure locally
and collecting only the successful transcription paths. -/
def transcribe_directory (env : Env) (fs : FS) (directory : String)
    (output_dir : Option String) (language : Option String) (keep_audio : Bool) :
    FS × List String :=
  let out_dir := resolveBatchOutDir output_dir directory
  let video_files := discover_videos env directory
  if video_files.isEmpty then (fs, [])
  else
    video_files.foldl
      (fun acc video_path =>
        match transcribe_video env acc.1 video_path (some out_dir) language keep_audio with
        | (fs1, .ok p) => (fs1, acc.2 ++ [p])
        | (fs1, .error _) => (fs1, acc.2))
      (fs, [])

/-- The optional subtitle write of step 6: overwrite the subtitle file with
the rendered text when the `"segments"` key is present, else leave the
filesystem unchanged. -/
def srtUpdate (fs : FS) (path : String) (segs : Option (List Segment)) : FS :=
  match segs with
  | some ss => fsWrite fs path (render ss)
  | none => fs

/-- The audio destination `transcribe_video` uses: the retained `.wav` path
when `keep_audio`, else the `mkstemp` temporary path. -/
def audioDest (env : Env) (output_dir : Option String) (video_path : String)
    (keep_audio : Bool) : String :=
  if keep_audio then wavPath (resolveOutDir output_dir video_path) (videoName video_path)
  else tmpPath env

/-- The outcome of one batch item as a function of the environment alone: the
successful transcription path, or `none` when the item raised.  (The returned
outcome of `transcribe_video` does not depend on the starting filesystem.) -/
def itemResult (env : Env) (out_dir : String) (language : Option String)
    (keep_audio : Bool) (video_path : String) : Option String :=
  match (transcribe_video env fsEmpty video_path (some out_dir) language keep_audio).2 with
  | .ok p => some p
  | .error _ => none

/-- Test environment: extraction succeeds, inference succeeds with full text
`"T"` and no `"segments"` key. -/
def envA : Env :=
  { tempDir := "/tmp", tempName := "aud0.wav",
    ffmpegRun := fun _ _ => .success,
    whisper := fun _ _ => some { text := "T", segments := none },
    walk := fun _ => [] }

/-- Test environment: extraction succeeds, inference raises. -/
def envB : Env :=
  { tempDir := "/tmp", tempName := "aud0.wav",
    ffmpegRun := fun _ _ => .success,
    whisper := fun _ _ => none,
    walk := fun _ => [] }

/-- Test environment: inference succeeds with a present but empty
`"segments"` list. -/
def envC : Env :=
  { tempDir := "/tmp", tempName := "aud0.wav",
    ffmpegRun := fun _ _ => .success,
    whisper := fun _ _ => some { text := "T", segments := some [] },
    walk := fun _ => [] }

/-- Test environment: the decoder process fails to launch. -/
def envD : Env :=
  { tempDir := "/tmp", tempName := "aud0.wav",
    ffmpegRun := fun _ _ => .launchFail,
    whisper := fun _ _ => none,
    walk := fun _ => [] }

/-- Test environment: one discoverable video, decoder fails to launch. -/
def envE : Env :=
  { tempDir := "/tmp", tempName := "aud0.wav",
    ffmpegRun := fun _ _ => .launchFail,
    whisper := fun _ _ => none,
    walk := fun _ => [("/d", ["a.mp4"])] }

/-- Test environment: the decoder exits non-zero after a truncated write for
explicit destinations, and fails to launch for the temporary destination. -/
def envF : Env :=
  { tempDir := "/tmp", tempName := "aud0.wav",
    ffmpegRun := fun _ d => if d = "/tmp/aud0.wav" then .launchFail else .exitFail true,
    whisper := fun _ _ => none,
    walk := fun _ => [] }

theorem digitChar_toNat (n : Nat) (h : n < 10) : (digitChar n).toNat = 48 + n := by
  interval_cases n <;> decide

theorem digitChar_isDigit (n : Nat) (h : n < 10) : (digitChar n).isDigit = true := by
  interval_cases n <;> decide

theorem natDigitsAux_append (fuel : Nat) : ∀ n acc,
    natDigitsAux fuel n acc = natDigitsAux fuel n [] ++ acc := by
  induction fuel with
  | zero => intro n acc; simp [natDigitsAux]
  | succ fuel ih =>
    intro n acc
    by_cases h10 : n < 10
    · simp [natDigitsAux, h10]
    · rw [natDigitsAux, natDigitsAux, if_neg h10, if_neg h10,
        ih (n / 10) (digitChar (n % 10) :: acc), ih (n / 10) [digitChar (n % 10)]]
      simp

theorem natDigits_isDigit (fuel : Nat) : ∀ n acc,
    (∀ c ∈ acc, c.isDigit = true) →
    ∀ c ∈ natDigitsAux fuel n acc, c.isDigit = true := by
  induction fuel with
  | zero => intro n acc hacc; simpa [natDigitsAux] using hacc
  | succ fuel ih =>
    intro n acc hacc c hc
    rw [natDigitsAux] at hc
    by_cases h10 : n < 10
    · rw [if_pos h10] at hc
      rcases List.mem_cons.mp hc with h | h
      · subst h; exact digitChar_isDigit n h10
      · exact hacc c h
    · rw [if_neg h10] at hc
      refine ih (n / 10) _ ?_ c hc
      intro d hd
      rcases List.mem_cons.mp hd with h | h
      · subst h; exact digitChar_isDigit (n % 10) (Nat.mod_lt n (by omega))
      · exact hacc d h

theorem natDigits_all_isDigit (n : Nat) : ∀ c ∈ natDigits n, c.isDigit = true :=
  natDigits_isDigit (n + 1) n [] (by intro c hc; cases hc)

theorem natDigitsAux_length_le (fuel : Nat) : ∀ n k, n < fuel → n < 10 ^ k → 1 ≤ k →
    (natDigitsAux fuel n []).length ≤ k := by
  induction fuel with
  | zero => intro n k h; omega
  | succ fuel ih =>
    intro n k hfuel hk hk1
    by_cases h10 : n < 10
    · simp [natDigitsAux, h10]; omega
    · rw [natDigitsAux, if_neg h10, natDigitsAux_append]
      have hk2 : 2 ≤ k := by
        by_contra hlt
        have : k = 1 := by omega
        subst this
        simp at hk
        omega
      have hdivfuel : n / 10 < fuel := by
        have : n / 10 < n := Nat.div_lt_self (by omega) (by omega)
        omega
      have hdivpow : n / 10 < 10 ^ (k - 1) := by
        rw [Nat.div_lt_iff_lt_mul (by omega)]
        calc n < 10 ^ k := hk
        _ = 10 ^ (k - 1) * 10 := by
            rw [← pow_succ]
            congr 1
            omega
      have := ih (n / 10) (k - 1) hdivfuel hdivpow (by omega)
      simp only [List.length_append, List.length_cons, List.length_nil]
      omega

theorem natDigits_length_le (n k : Nat) (hk : n < 10 ^ k) (hk1 : 1 ≤ k) :
    (natDigits n).length ≤ k :=
  natDigitsAux_length_le (n + 1) n k (Nat.lt_succ_self n) hk hk1

theorem natDigits_length_pos (n : Nat) : 1 ≤ (natDigits n).length := by
  rw [natDigits, natDigitsAux]
  by_cases h10 : n < 10
  · simp [h10]
  · rw [if_neg h10, natDigitsAux_append]
    simp

theorem natDigitsAux_foldl (fuel : Nat) : ∀ n a, n < fuel →
    (natDigitsAux fuel n []).foldl digitStep a
      = a * 10 ^ (natDigitsAux fuel n []).length + n := by
  induction fuel with
  | zero => intro n a h; omega
  | succ fuel ih =>
    intro n a hfuel
    by_cases h10 : n < 10
    · simp [natDigitsAux, h10, List.foldl, digitStep, digitChar_toNat n h10]
      omega
    · rw [natDigitsAux, if_neg h10, natDigitsAux_append]
      have hdivfuel : n / 10 < fuel := by
        have : n / 10 < n := Nat.div_lt_self (by omega) (by omega)
        omega
      rw [List.foldl_append, ih (n / 10) a hdivfuel]
      simp only [List.foldl, List.length_append, List.length_cons, List.length_nil]
      rw [digitStep, digitChar_toNat (n % 10) (Nat.mod_lt n (by omega))]
      rw [pow_succ]
      have hmod : 10 * (n / 10) + n % 10 = n := by omega
      ring_nf
      omega

theorem digitsVal_natDigits (n : Nat) : digitsVal (natDigits n) = n := by
  rw [digitsVal, natDigits, natDigitsAux_foldl (n + 1) n 0 (Nat.lt_succ_self n)]
  simp

theorem foldl_replicate_zero (k : Nat) : ∀ a,
    (List.replicate k '0').foldl digitStep a = a * 10 ^ k := by
  induction k with
  | zero => intro a; simp
  | succ k ih =>
    intro a
    rw [List.replicate_succ, List.foldl_cons, ih]
    have h0 : '0'.toNat = 48 := rfl
    simp only [digitStep, h0, Nat.sub_self, Nat.add_zero]
    ring

theorem digitsVal_padNat (w n : Nat) : digitsVal (padNat w n) = n := by
  rw [digitsVal, padNat, List.foldl_append, foldl_replicate_zero]
  simpa using digitsVal_natDigits n

theorem padNat_length (w n : Nat) (h : (natDigits n).length ≤ w) :
    (padNat w n).length = w := by
  rw [padNat]
  simp only [List.length_append, List.length_replicate]
  omega

theorem padNat_all_isDigit (w n : Nat) : ∀ c ∈ padNat w n, c.isDigit = true := by
  intro c hc
  rw [padNat] at hc
  rcases List.mem_append.mp hc with h | h
  · rw [List.eq_of_mem_replicate h]; decide
  · exact natDigits_all_isDigit n c h

theorem padNat_length_ge (w n : Nat) : w ≤ (padNat w n).length := by
  rw [padNat]
  simp only [List.length_append, List.length_replicate]
  omega

theorem takeWhile_digits (xs : List Char) : ∀ (ys : List Char) (y : Char),
    (∀ c ∈ xs, c.isDigit = true) → y.isDigit = false →
    (xs ++ y :: ys).takeWhile Char.isDigit = xs ∧
    (xs ++ y :: ys).dropWhile Char.isDigit = y :: ys := by
  induction xs with
  | nil =>
    intro ys y _ hy
    constructor
    · simp [List.takeWhile_cons, hy]
    · simp [List.dropWhile_cons, hy]
  | cons x xs ih =>
    intro ys y hxs hy
    have hx : x.isDigit = true := hxs x (List.mem_cons_self x xs)
    have := ih ys y (fun c hc => hxs c (List.mem_cons_of_mem x hc)) hy
    constructor
    · simp [List.takeWhile_cons, hx, this.1]
    · simp [List.dropWhile_cons, hx, this.2]

theorem pyInt_of_nonneg (q : ℚ) (h : 0 ≤ q) : pyInt q = ⌊q⌋ := by
  rw [pyInt, if_neg (not_lt.mpr h)]

theorem pyMod_nonneg (a b : ℚ) (hb : 0 < b) (_ : 0 ≤ a) : 0 ≤ pyMod a b := by
  rw [pyMod]
  have h1 : (⌊a / b⌋ : ℚ) ≤ a / b := Int.floor_le (a / b)
  have h2 : b * (⌊a / b⌋ : ℚ) ≤ b * (a / b) := by
    exact mul_le_mul_of_nonneg_left h1 (le_of_lt hb)
  rw [mul_div_cancel₀ a (ne_of_gt hb)] at h2
  linarith

theorem pyMod_lt (a b : ℚ) (hb : 0 < b) : pyMod a b < b := by
  rw [pyMod]
  have h1 : a / b < ⌊a / b⌋ + 1 := Int.lt_floor_add_one (a / b)
  have h2 : b * (a / b) < b * ((⌊a / b⌋ : ℚ) + 1) := by
    exact mul_lt_mul_of_pos_left h1 hb
  rw [mul_div_cancel₀ a (ne_of_gt hb)] at h2
  linarith

theorem pyMod_decompose (a b : ℚ) : a = b * (⌊a / b⌋ : ℚ) + pyMod a b := by
  rw [pyMod]; ring

theorem padInt_of_nonneg (w : Nat) (n : ℤ) (h : 0 ≤ n) :
    padInt w n = padNat w n.toNat := by
  rw [padInt, if_neg (not_lt.mpr h)]

theorem format_components (s : ℚ) (hs : 0 ≤ s) :
    ∃ H M S MS : ℕ, M < 60 ∧ S < 60 ∧ MS < 1000 ∧
      format_timestamp s = String.mk (timestampChars H M S MS) ∧
      (H : ℚ) * 3600 + (M : ℚ) * 60 + (S : ℚ) + (MS : ℚ) / 1000
        = (⌊s * 1000⌋ : ℚ) / 1000 := by
  have h3600 : (0:ℚ) < 3600 := by norm_num
  have h60 : (0:ℚ) < 60 := by norm_num
  set Hz : ℤ := ⌊s / 3600⌋ with hHzdef
  have hHzl : 0 ≤ Hz := Int.floor_nonneg.mpr (div_nonneg hs (by norm_num))
  set s1 : ℚ := pyMod s 3600 with hs1def
  have hs1l : 0 ≤ s1 := pyMod_nonneg s 3600 h3600 hs
  have hs1u : s1 < 3600 := pyMod_lt s 3600 h3600
  set Mz : ℤ := ⌊s1 / 60⌋ with hMzdef
  have hMzl : 0 ≤ Mz := Int.floor_nonneg.mpr (div_nonneg hs1l (le_of_lt h60))
  have hMzu : Mz < 60 := by
    rw [hMzdef, Int.floor_lt]
    rw [div_lt_iff₀ h60]
    push_cast
    linarith
  set s2 : ℚ := pyMod s1 60 with hs2def
  have hs2l : 0 ≤ s2 := pyMod_nonneg s1 60 h60 hs1l
  have hs2u : s2 < 60 := pyMod_lt s1 60 h60
  set Sz : ℤ := ⌊s2⌋ with hSzdef
  have hSzl : 0 ≤ Sz := Int.floor_nonneg.mpr hs2l
  have hSzu : Sz < 60 := by rw [hSzdef, Int.floor_lt]; push_cast; linarith
  have hfr0 : 0 ≤ s2 - (Sz : ℚ) := sub_nonneg.mpr (Int.floor_le s2)
  have hfr1 : s2 - (Sz : ℚ) < 1 := by
    have := Int.lt_floor_add_one s2
    rw [← hSzdef] at this
    linarith
  set MSz : ℤ := ⌊(s2 - (Sz : ℚ)) * 1000⌋ with hMSzdef
  have hMSzl : 0 ≤ MSz := Int.floor_nonneg.mpr (mul_nonneg hfr0 (by norm_num))
  have hMSzu : MSz < 1000 := by
    rw [hMSzdef, Int.floor_lt]
    have := mul_lt_mul_of_pos_right hfr1 (show (0:ℚ) < 1000 by norm_num)
    push_cast
    linarith
  have hpy2 : pyInt s2 = Sz := by rw [pyInt_of_nonneg s2 hs2l, hSzdef]
  have hpyMS : pyInt ((s2 - (Sz : ℚ)) * 1000) = MSz := by
    rw [pyInt_of_nonneg _ (mul_nonneg hfr0 (by norm_num)), hMSzdef]
  refine ⟨Hz.toNat, Mz.toNat, Sz.toNat, MSz.toNat, by omega, by omega, by omega, ?_, ?_⟩
  · simp only [format_timestamp]
    rw [← hHzdef, ← hs1def, ← hMzdef, ← hs2def, hpy2, hpyMS]
    rw [padInt_of_nonneg 2 Hz hHzl, padInt_of_nonneg 2 Mz hMzl,
      padInt_of_nonneg 2 Sz hSzl, padInt_of_nonneg 3 MSz hMSzl]
    rfl
  · have hdec1 : s = 3600 * (Hz : ℚ) + s1 := by
      rw [hs1def, pyMod, ← hHzdef]; ring
    have hdec2 : s1 = 60 * (Mz : ℚ) + s2 := by
      rw [hs2def, pyMod, ← hMzdef]; ring
    have hflo : ⌊s * 1000⌋ = 3600000 * Hz + 60000 * Mz + 1000 * Sz + MSz := by
      have hsplit : s * 1000
          = ((3600000 * Hz + 60000 * Mz + 1000 * Sz : ℤ) : ℚ) + (s2 - (Sz : ℚ)) * 1000 := by
        push_cast
        linarith
      rw [hsplit, Int.floor_int_add, ← hMSzdef]
    have hc1 : ((Hz.toNat : ℕ) : ℚ) = (Hz : ℚ) := by
      exact_mod_cast congrArg (Int.cast : ℤ → ℚ) (Int.toNat_of_nonneg hHzl)
    have hc2 : ((Mz.toNat : ℕ) : ℚ) = (Mz : ℚ) := by
      exact_mod_cast congrArg (Int.cast : ℤ → ℚ) (Int.toNat_of_nonneg hMzl)
    have hc3 : ((Sz.toNat : ℕ) : ℚ) = (Sz : ℚ) := by
      exact_mod_cast congrArg (Int.cast : ℤ → ℚ) (Int.toNat_of_nonneg hSzl)
    have hc4 : ((MSz.toNat : ℕ) : ℚ) = (MSz : ℚ) := by
      exact_mod_cast congrArg (Int.cast : ℤ → ℚ) (Int.toNat_of_nonneg hMSzl)
    rw [hc1, hc2, hc3, hc4, hflo]
    push_cast
    ring

theorem timestampChars_parts (H M S MS : Nat) :
    (timestampChars H M S MS).takeWhile Char.isDigit = padNat 2 H ∧
    (timestampChars H M S MS).dropWhile Char.isDigit
      = ':' :: (padNat 2 M ++ ':' :: (padNat 2 S ++ ',' :: padNat 3 MS)) := by
  rw [timestampChars]
  simp only [List.cons_append, List.append_assoc]
  exact takeWhile_digits (padNat 2 H) _ ':' (padNat_all_isDigit 2 H) (by decide)

theorem isTimestampShape_timestampChars (H M S MS : Nat) (hM : M < 60) (hS : S < 60)
    (hMS : MS < 1000) :
    isTimestampShape (timestampChars H M S MS) = true := by
  have hlenM : (padNat 2 M).length = 2 :=
    padNat_length 2 M (natDigits_length_le M 2 (by norm_num; omega) (by norm_num))
  have hlenS : (padNat 2 S).length = 2 :=
    padNat_length 2 S (natDigits_length_le S 2 (by norm_num; omega) (by norm_num))
  have hlenMS : (padNat 3 MS).length = 3 :=
    padNat_length 3 MS (natDigits_length_le MS 3 (by norm_num; omega) (by norm_num))
  obtain ⟨a, b, hab⟩ := List.length_eq_two.mp hlenM
  obtain ⟨c, d, hcd⟩ := List.length_eq_two.mp hlenS
  obtain ⟨e, f, g, hefg⟩ := List.length_eq_three.mp hlenMS
  obtain ⟨htake, hdrop⟩ := timestampChars_parts H M S MS
  have ha : a.isDigit = true := padNat_all_isDigit 2 M a (by rw [hab]; simp)
  have hb : b.isDigit = true := padNat_all_isDigit 2 M b (by rw [hab]; simp)
  have hc : c.isDigit = true := padNat_all_isDigit 2 S c (by rw [hcd]; simp)
  have hd : d.isDigit = true := padNat_all_isDigit 2 S d (by rw [hcd]; simp)
  have he : e.isDigit = true := padNat_all_isDigit 3 MS e (by rw [hefg]; simp)
  have hf : f.isDigit = true := padNat_all_isDigit 3 MS f (by rw [hefg]; simp)
  have hg : g.isDigit = true := padNat_all_isDigit 3 MS g (by rw [hefg]; simp)
  rw [isTimestampShape, htake, hdrop, hab, hcd, hefg]
  simp only [List.cons_append, List.nil_append, List.append_assoc]
  rw [Bool.and_eq_true]
  constructor
  · simpa using padNat_length_ge 2 H
  · simp [ha, hb, hc, hd, he, hf, hg]

theorem parseTimestamp_timestampChars (H M S MS : Nat) (hM : M < 60) (hS : S < 60)
    (hMS : MS < 1000) :
    parseTimestamp (timestampChars H M S MS)
      = (H : ℚ) * 3600 + (M : ℚ) * 60 + (S : ℚ) + (MS : ℚ) / 1000 := by
  have hlenM : (padNat 2 M).length = 2 :=
    padNat_length 2 M (natDigits_length_le M 2 (by norm_num; omega) (by norm_num))
  have hlenS : (padNat 2 S).length = 2 :=
    padNat_length 2 S (natDigits_length_le S 2 (by norm_num; omega) (by norm_num))
  have hlenMS : (padNat 3 MS).length = 3 :=
    padNat_length 3 MS (natDigits_length_le MS 3 (by norm_num; omega) (by norm_num))
  obtain ⟨a, b, hab⟩ := List.length_eq_two.mp hlenM
  obtain ⟨c, d, hcd⟩ := List.length_eq_two.mp hlenS
  obtain ⟨e, f, g, hefg⟩ := List.length_eq_three.mp hlenMS
  obtain ⟨htake, hdrop⟩ := timestampChars_parts H M S MS
  rw [parseTimestamp, htake, hdrop, hab, hcd, hefg]
  simp only [List.cons_append, List.nil_append, List.append_assoc]
  rw [← hab, ← hcd, ← hefg]
  rw [digitsVal_padNat, digitsVal_padNat, digitsVal_padNat, digitsVal_padNat]

theorem format_timestamp_zero : format_timestamp 0 = "00:00:00,000" := by
  have e1 : ⌊(0:ℚ) / 3600⌋ = 0 := by norm_num
  have e2 : pyMod (0:ℚ) 3600 = 0 := by rw [pyMod, e1]; norm_num
  have e3 : ⌊(0:ℚ) / 60⌋ = 0 := by norm_num
  have e4 : pyMod (0:ℚ) 60 = 0 := by rw [pyMod, e3]; norm_num
  have e5 : pyInt (0:ℚ) = 0 := by rw [pyInt_of_nonneg _ le_rfl]; norm_num
  have e6 : ((0:ℚ) - ((0:ℤ) : ℚ)) * 1000 = 0 := by norm_num
  simp only [format_timestamp, e1, e2, e3, e4, e5, e6]
  decide

theorem format_timestamp_three_halves : format_timestamp (3/2) = "00:00:01,500" := by
  have e1 : ⌊(3/2:ℚ) / 3600⌋ = 0 := by norm_num
  have e2 : pyMod (3/2:ℚ) 3600 = 3/2 := by rw [pyMod, e1]; norm_num
  have e3 : ⌊(3/2:ℚ) / 60⌋ = 0 := by norm_num
  have e4 : pyMod (3/2:ℚ) 60 = 3/2 := by rw [pyMod, e3]; norm_num
  have e5 : pyInt (3/2:ℚ) = 1 := by
    rw [pyInt_of_nonneg _ (by norm_num)]
    norm_num [Int.floor_eq_iff]
  have e6 : ((3/2:ℚ) - ((1:ℤ) : ℚ)) * 1000 = 500 := by norm_num
  have e7 : pyInt (500:ℚ) = 500 := by rw [pyInt_of_nonneg _ (by norm_num)]; norm_num
  simp only [format_timestamp, e1, e2, e3, e4, e5, e6, e7]
  decide

theorem format_timestamp_example :
    format_timestamp (37254567 / 10000) = "01:02:05,456" := by
  have e1 : ⌊(37254567/10000:ℚ) / 3600⌋ = 1 := by
    rw [Int.floor_eq_iff]
    norm_num
  have e2 : pyMod (37254567/10000:ℚ) 3600 = 1254567/10000 := by
    rw [pyMod, e1]; norm_num
  have e3 : ⌊(1254567/10000:ℚ) / 60⌋ = 2 := by
    rw [Int.floor_eq_iff]
    norm_num
  have e4 : pyMod (1254567/10000:ℚ) 60 = 54567/10000 := by
    rw [pyMod, e3]; norm_num
  have e5 : pyInt (54567/10000:ℚ) = 5 := by
    rw [pyInt_of_nonneg _ (by norm_num), Int.floor_eq_iff]
    norm_num
  have e6 : ((54567/10000:ℚ) - ((5:ℤ) : ℚ)) * 1000 = 4567/10 := by norm_num
  have e7 : pyInt (4567/10:ℚ) = 456 := by
    rw [pyInt_of_nonneg _ (by norm_num), Int.floor_eq_iff]
    norm_num
  simp only [format_timestamp, e1, e2, e3, e4, e5, e6, e7]
  decide

theorem strConcat_cons (a : String) (l : List String) :
    strConcat (a :: l) = a ++ strConcat l := rfl

theorem renderFrom_eq_strConcat (segs : List Segment) : ∀ k,
    renderFrom k segs
      = strConcat (List.ofFn fun i : Fin segs.length => srt_block (i.1 + k) (segs.get i)) := by
  induction segs with
  | nil => intro k; simp [renderFrom, strConcat]
  | cons seg rest ih =>
    intro k
    have hfun : (fun i : Fin rest.length =>
          srt_block (i.1 + 1 + k) ((seg :: rest).get i.succ))
        = fun i : Fin rest.length => srt_block (i.1 + (k + 1)) (rest.get i) := by
      funext i
      have harith : i.1 + 1 + k = i.1 + (k + 1) := by omega
      rw [harith]
      rfl
    rw [renderFrom, ih (k + 1)]
    simp only [List.ofFn_succ, strConcat_cons, Fin.val_zero, Fin.val_succ,
      List.get_cons_zero, List.get_cons_succ, Nat.zero_add]
    rw [hfun]


theorem fsWrite_self (fs : FS) (k v : String) : fsWrite fs k v k = some v := by
  simp [fsWrite]

theorem fsWrite_other (fs : FS) (k v p : String) (h : p ≠ k) :
    fsWrite fs k v p = fs p := by
  simp [fsWrite, h]

theorem fsRemove_self (fs : FS) (k : String) : fsRemove fs k k = none := by
  simp [fsRemove]

theorem fsRemove_other (fs : FS) (k p : String) (h : p ≠ k) :
    fsRemove fs k p = fs p := by
  simp [fsRemove, h]

theorem fsRemove_fsWrite (fs : FS) (k v : String) :
    fsRemove (fsWrite fs k v) k = fsRemove fs k := by
  funext p
  by_cases h : p = k <;> simp [fsRemove, fsWrite, h]

theorem fsWrite_fsWrite (fs : FS) (k v w : String) :
    fsWrite (fsWrite fs k v) k w = fsWrite fs k w := by
  funext p
  by_cases h : p = k <;> simp [fsWrite, h]

theorem fsExists_fsWrite (fs : FS) (k v : String) :
    fsExists (fsWrite fs k v) k = true := by
  simp [fsExists, fsWrite]

theorem fsRemove_of_none (fs : FS) (k : String) (h : fs k = none) :
    fsRemove fs k = fs := by
  funext p
  by_cases hp : p = k
  · rw [hp, fsRemove_self, h]
  · rw [fsRemove_other fs k p hp]

theorem tmpPath_startsWith (env : Env) :
    pyStartsWith (tmpPath env) env.tempDir = true := by
  rw [pyStartsWith, List.isPrefixOf_iff_prefix, tmpPath, String.data_append,
    String.data_append, List.append_assoc]
  exact List.prefix_append _ _

theorem extract_audio_none_success (env : Env) (fs : FS) (vp : String)
    (hff : env.ffmpegRun vp (tmpPath env) = .success) :
    extract_audio env fs vp none
      = (fsWrite fs (tmpPath env) (audioContent vp), .ok (tmpPath env)) := by
  rw [extract_audio]
  simp only [hff]
  rw [fsWrite_fsWrite]

theorem extract_audio_none_exitFail (env : Env) (fs : FS) (vp : String)
    (hw : Bool) (hff : env.ffmpegRun vp (tmpPath env) = .exitFail hw) :
    extract_audio env fs vp none
      = (fsRemove fs (tmpPath env), .error .calledProcessError) := by
  rw [extract_audio]
  simp only [hff]
  cases hw
  · simp only [Bool.false_eq_true, if_false, fsExists_fsWrite, if_true]
    rw [fsRemove_fsWrite]
  · simp only [if_true, fsExists_fsWrite]
    rw [fsRemove_fsWrite, fsRemove_fsWrite]

theorem extract_audio_none_launchFail (env : Env) (fs : FS) (vp : String)
    (hff : env.ffmpegRun vp (tmpPath env) = .launchFail) :
    extract_audio env fs vp none
      = (fsWrite fs (tmpPath env) "", .error .fileNotFoundError) := by
  rw [extract_audio]
  simp only [hff]

theorem extract_audio_some_success (env : Env) (fs : FS) (vp dest : String)
    (hff : env.ffmpegRun vp dest = .success) :
    extract_audio env fs vp (some dest)
      = (fsWrite fs dest (audioContent vp), .ok dest) := by
  rw [extract_audio]
  simp only [hff]

theorem extract_audio_some_exitFail (env : Env) (fs : FS) (vp dest : String)
    (hw : Bool) (hff : env.ffmpegRun vp dest = .exitFail hw) :
    extract_audio env fs vp (some dest)
      = (fsRemove fs dest, .error .calledProcessError) := by
  rw [extract_audio]
  simp only [hff]
  cases hw
  · simp only [Bool.false_eq_true, if_false]
    rcases hdest : fs dest with _ | v
    · rw [if_neg (by simp [fsExists, hdest]), fsRemove_of_none fs dest hdest]
    · rw [if_pos (by simp [fsExists, hdest])]
  · simp only [if_true, fsExists_fsWrite]
    rw [fsRemove_fsWrite]

theorem extract_audio_some_launchFail (env : Env) (fs : FS) (vp dest : String)
    (hff : env.ffmpegRun vp dest = .launchFail) :
    extract_audio env fs vp (some dest)
      = (fs, .error .fileNotFoundError) := by
  rw [extract_audio]
  simp only [hff]


theorem transcribe_video_noKeep_launchFail (env : Env) (fs : FS) (vp : String)
    (od lang : Option String)
    (hff : env.ffmpegRun vp (tmpPath env) = .launchFail) :
    transcribe_video env fs vp od lang false
      = (fsWrite fs (tmpPath env) "", .error .fileNotFoundError) := by
  rw [transcribe_video]
  simp only [Bool.false_eq_true, if_false]
  rw [extract_audio_none_launchFail env fs vp hff]

theorem transcribe_video_noKeep_exitFail (env : Env) (fs : FS) (vp : String)
    (od lang : Option String) (hw : Bool)
    (hff : env.ffmpegRun vp (tmpPath env) = .exitFail hw) :
    transcribe_video env fs vp od lang false
      = (fsRemove fs (tmpPath env), .error .calledProcessError) := by
  rw [transcribe_video]
  simp only [Bool.false_eq_true, if_false]
  rw [extract_audio_none_exitFail env fs vp hw hff]

theorem transcribe_video_noKeep_inferFail (env : Env) (fs : FS) (vp : String)
    (od lang : Option String) (e : PyError)
    (hff : env.ffmpegRun vp (tmpPath env) = .success)
    (ht : transcribe_audio env (tmpPath env) lang = .error e) :
    transcribe_video env fs vp od lang false
      = (fsWrite fs (tmpPath env) (audioContent vp), .error e) := by
  rw [transcribe_video]
  simp only [Bool.false_eq_true, if_false]
  rw [extract_audio_none_success env fs vp hff]
  simp only [ht]

theorem transcribe_video_noKeep_ok (env : Env) (fs : FS) (vp : String)
    (od lang : Option String) (r : TResult)
    (hff : env.ffmpegRun vp (tmpPath env) = .success)
    (ht : transcribe_audio env (tmpPath env) lang = .ok r) :
    transcribe_video env fs vp od lang false
      = (srtUpdate
          (fsWrite (fsRemove fs (tmpPath env))
            (txtPath (resolveOutDir od vp) (videoName vp)) r.text)
          (srtPath (resolveOutDir od vp) (videoName vp)) r.segments,
         .ok (txtPath (resolveOutDir od vp) (videoName vp))) := by
  rw [transcribe_video]
  simp only [Bool.false_eq_true, if_false]
  rw [extract_audio_none_success env fs vp hff]
  simp only [ht, Bool.not_false, Bool.true_and, tmpPath_startsWith env, if_true]
  rw [fsRemove_fsWrite, srtUpdate.eq_def]

theorem transcribe_video_keep_launchFail (env : Env) (fs : FS) (vp : String)
    (od lang : Option String)
    (hff : env.ffmpegRun vp (wavPath (resolveOutDir od vp) (videoName vp)) = .launchFail) :
    transcribe_video env fs vp od lang true
      = (fs, .error .fileNotFoundError) := by
  rw [transcribe_video]
  simp only [if_true]
  rw [extract_audio_some_launchFail env fs vp _ hff]

theorem transcribe_video_keep_exitFail (env : Env) (fs : FS) (vp : String)
    (od lang : Option String) (hw : Bool)
    (hff : env.ffmpegRun vp (wavPath (resolveOutDir od vp) (videoName vp)) = .exitFail hw) :
    transcribe_video env fs vp od lang true
      = (fsRemove fs (wavPath (resolveOutDir od vp) (videoName vp)),
         .error .calledProcessError) := by
  rw [transcribe_video]
  simp only [if_true]
  rw [extract_audio_some_exitFail env fs vp _ hw hff]

theorem transcribe_video_keep_inferFail (env : Env) (fs : FS) (vp : String)
    (od lang : Option String) (e : PyError)
    (hff : env.ffmpegRun vp (wavPath (resolveOutDir od vp) (videoName vp)) = .success)
    (ht : transcribe_audio env (wavPath (resolveOutDir od vp) (videoName vp)) lang
        = .error e) :
    transcribe_video env fs vp od lang true
      = (fsWrite fs (wavPath (resolveOutDir od vp) (videoName vp)) (audioContent vp),
         .error e) := by
  rw [transcribe_video]
  simp only [if_true]
  rw [extract_audio_some_success env fs vp _ hff]
  simp only [ht]

theorem transcribe_video_keep_ok (env : Env) (fs : FS) (vp : String)
    (od lang : Option String) (r : TResult)
    (hff : env.ffmpegRun vp (wavPath (resolveOutDir od vp) (videoName vp)) = .success)
    (ht : transcribe_audio env (wavPath (resolveOutDir od vp) (videoName vp)) lang
        = .ok r) :
    transcribe_video env fs vp od lang true
      = (srtUpdate
          (fsWrite (fsWrite fs (wavPath (resolveOutDir od vp) (videoName vp))
              (audioContent vp))
            (txtPath (resolveOutDir od vp) (videoName vp)) r.text)
          (srtPath (resolveOutDir od vp) (videoName vp)) r.segments,
         .ok (txtPath (resolveOutDir od vp) (videoName vp))) := by
  rw [transcribe_video]
  simp only [if_true]
  rw [extract_audio_some_success env fs vp _ hff]
  simp only [ht, Bool.not_true, Bool.false_and, Bool.false_eq_true, if_false]
  rw [srtUpdate.eq_def]


theorem transcribe_video_snd_ext (env : Env) (fs fs' : FS) (vp : String)
    (od lang : Option String) (keep : Bool) :
    (transcribe_video env fs vp od lang keep).2
      = (transcribe_video env fs' vp od lang keep).2 := by
  cases keep
  · rcases hff : env.ffmpegRun vp (tmpPath env) with _ | hw | _
    · cases ht : transcribe_audio env (tmpPath env) lang with
      | error e =>
        rw [transcribe_video_noKeep_inferFail env fs vp od lang e hff ht,
          transcribe_video_noKeep_inferFail env fs' vp od lang e hff ht]
      | ok r =>
        rw [transcribe_video_noKeep_ok env fs vp od lang r hff ht,
          transcribe_video_noKeep_ok env fs' vp od lang r hff ht]
    · rw [transcribe_video_noKeep_exitFail env fs vp od lang hw hff,
        transcribe_video_noKeep_exitFail env fs' vp od lang hw hff]
    · rw [transcribe_video_noKeep_launchFail env fs vp od lang hff,
        transcribe_video_noKeep_launchFail env fs' vp od lang hff]
  · rcases hff : env.ffmpegRun vp (wavPath (resolveOutDir od vp) (videoName vp))
      with _ | hw | _
    · cases ht : transcribe_audio env (wavPath (resolveOutDir od vp) (videoName vp)) lang with
      | error e =>
        rw [transcribe_video_keep_inferFail env fs vp od lang e hff ht,
          transcribe_video_keep_inferFail env fs' vp od lang e hff ht]
      | ok r =>
        rw [transcribe_video_keep_ok env fs vp od lang r hff ht,
          transcribe_video_keep_ok env fs' vp od lang r hff ht]
    · rw [transcribe_video_keep_exitFail env fs vp od lang hw hff,
        transcribe_video_keep_exitFail env fs' vp od lang hw hff]
    · rw [transcribe_video_keep_launchFail env fs vp od lang hff,
        transcribe_video_keep_launchFail env fs' vp od lang hff]

theorem transcribe_video_ok_path (env : Env) (fs : FS) (vp : String)
    (od lang : Option String) (keep : Bool) (p : String)
    (h : (transcribe_video env fs vp od lang keep).2 = .ok p) :
    p = txtPath (resolveOutDir od vp) (videoName vp) := by
  cases keep
  · rcases hff : env.ffmpegRun vp (tmpPath env) with _ | hw | _
    · cases ht : transcribe_audio env (tmpPath env) lang with
      | error e =>
        rw [transcribe_video_noKeep_inferFail env fs vp od lang e hff ht] at h
        simp at h
      | ok r =>
        rw [transcribe_video_noKeep_ok env fs vp od lang r hff ht] at h
        simp at h
        exact h.symm
    · rw [transcribe_video_noKeep_exitFail env fs vp od lang hw hff] at h
      simp at h
    · rw [transcribe_video_noKeep_launchFail env fs vp od lang hff] at h
      simp at h
  · rcases hff : env.ffmpegRun vp (wavPath (resolveOutDir od vp) (videoName vp))
      with _ | hw | _
    · cases ht : transcribe_audio env (wavPath (resolveOutDir od vp) (videoName vp)) lang with
      | error e =>
        rw [transcribe_video_keep_inferFail env fs vp od lang e hff ht] at h
        simp at h
      | ok r =>
        rw [transcribe_video_keep_ok env fs vp od lang r hff ht] at h
        simp at h
        exact h.symm
    · rw [transcribe_video_keep_exitFail env fs vp od lang hw hff] at h
      simp at h
    · rw [transcribe_video_keep_launchFail env fs vp od lang hff] at h
      simp at h

theorem transcribe_directory_go (env : Env) (out_dir : String) (lang : Option String)
    (keep : Bool) (files : List String) : ∀ (fs : FS) (acc : List String),
    (files.foldl
      (fun acc' video_path =>
        match transcribe_video env acc'.1 video_path (some out_dir) lang keep with
        | (fs1, .ok p) => (fs1, acc'.2 ++ [p])
        | (fs1, .error _) => (fs1, acc'.2)) (fs, acc)).2
      = acc ++ files.filterMap (itemResult env out_dir lang keep) := by
  induction files with
  | nil => intro fs acc; simp
  | cons vp rest ih =>
    intro fs acc
    rw [List.foldl_cons]
    rcases hv : transcribe_video env fs vp (some out_dir) lang keep with ⟨fs1, r⟩
    have h2 : (transcribe_video env fs vp (some out_dir) lang keep).2 = r := by rw [hv]
    cases r with
    | ok p =>
      have hitem : itemResult env out_dir lang keep vp = some p := by
        rw [itemResult,
          transcribe_video_snd_ext env fsEmpty fs vp (some out_dir) lang keep, h2]
      simp only [hv]
      rw [ih fs1 (acc ++ [p]), List.filterMap_cons, hitem]
      simp
    | error e =>
      have hitem : itemResult env out_dir lang keep vp = none := by
        rw [itemResult,
          transcribe_video_snd_ext env fsEmpty fs vp (some out_dir) lang keep, h2]
      simp only [hv]
      rw [ih fs1 acc, List.filterMap_cons, hitem]

theorem transcribe_directory_paths (env : Env) (fs : FS) (dir : String)
    (od lang : Option String) (keep : Bool) :
    (transcribe_directory env fs dir od lang keep).2
      = (discover_videos env dir).filterMap
          (itemResult env (resolveBatchOutDir od dir) lang keep) := by
  rw [transcribe_directory]
  by_cases he : (discover_videos env dir).isEmpty = true
  · rw [if_pos he]
    rw [List.isEmpty_iff] at he
    rw [he]
    simp
  · rw [if_neg he]
    have := transcribe_directory_go env (resolveBatchOutDir od dir) lang keep
      (discover_videos env dir) fs []
    simpa using this

theorem length_filterMap_add_countP (f : String → Option String) (l : List String) :
    (l.filterMap f).length + l.countP (fun x => (f x).isNone) = l.length := by
  induction l with
  | nil => simp
  | cons a t ih =>
    rcases hf : f a with _ | v
    · rw [List.filterMap_cons, List.countP_cons, hf]
      simp
      omega
    · rw [List.filterMap_cons, List.countP_cons, hf]
      simp
      omega

theorem str_data_inj (s t : String) (h : s.data = t.data) : s = t := by
  cases s
  cases t
  simp_all

theorem pyStartsWith_slash (s : String) :
    pyStartsWith s "/" = true ↔ s.data.head? = some '/' := by
  rw [pyStartsWith]
  have hslash : ("/" : String).data = ['/'] := rfl
  rw [hslash]
  cases hs : s.data with
  | nil => simp [List.isPrefixOf]
  | cons c t =>
    simp [List.isPrefixOf]
    constructor
    · intro hc; rw [hc]
    · intro hc; exact hc.symm

theorem pyJoin_ext_ne (d n e1 e2 : String)
    (h1 : e1.data.head? = some '.') (h2 : e2.data.head? = some '.')
    (hne : e1 ≠ e2) : pyJoin d (n ++ e1) ≠ pyJoin d (n ++ e2) := by
  have hheads : (n ++ e1).data.head? = (n ++ e2).data.head? := by
    rw [String.data_append, String.data_append]
    cases hn : n.data with
    | nil => simp [h1, h2]
    | cons c t => simp
  have hiff : pyStartsWith (n ++ e1) "/" = true ↔ pyStartsWith (n ++ e2) "/" = true := by
    rw [pyStartsWith_slash, pyStartsWith_slash, hheads]
  have hcancel : n ++ e1 ≠ n ++ e2 := by
    intro heq
    have hd := congrArg String.data heq
    rw [String.data_append, String.data_append] at hd
    exact hne (str_data_inj e1 e2 (List.append_cancel_left hd))
  intro heq
  rw [pyJoin, pyJoin] at heq
  by_cases hb : pyStartsWith (n ++ e1) "/" = true
  · rw [if_pos hb, if_pos (hiff.mp hb)] at heq
    exact hcancel heq
  · rw [if_neg hb, if_neg (fun h => hb (hiff.mpr h))] at heq
    by_cases hd2 : d = "" ∨ pyEndsWith d "/" = true
    · rw [if_pos hd2, if_pos hd2] at heq
      have hd := congrArg String.data heq
      rw [String.data_append, String.data_append] at hd
      exact hcancel (str_data_inj _ _ (List.append_cancel_left hd))
    · rw [if_neg hd2, if_neg hd2] at heq
      have hd := congrArg String.data heq
      rw [String.data_append, String.data_append] at hd
      exact hcancel (str_data_inj _ _ (List.append_cancel_left hd))

theorem txtPath_ne_srtPath (d n : String) : txtPath d n ≠ srtPath d n :=
  pyJoin_ext_ne d n ".txt" ".srt" rfl rfl (by decide)

theorem wavPath_ne_txtPath (d n : String) : wavPath d n ≠ txtPath d n :=
  pyJoin_ext_ne d n ".wav" ".txt" rfl rfl (by decide)

theorem wavPath_ne_srtPath (d n : String) : wavPath d n ≠ srtPath d n :=
  pyJoin_ext_ne d n ".wav" ".srt" rfl rfl (by decide)

theorem char_toNat_ofNat (n : Nat) (h : n < 55296) : (Char.ofNat n).toNat = n := by
  unfold Char.ofNat
  split
  · rfl
  · next h2 => exact absurd (Or.inl h) h2

theorem lowerChar_idem (c : Char) : lowerChar (lowerChar c) = lowerChar c := by
  by_cases h : 65 ≤ c.toNat ∧ c.toNat ≤ 90
  · have h1 : lowerChar c = Char.ofNat (c.toNat + 32) := by rw [lowerChar, if_pos h]
    have hv : (Char.ofNat (c.toNat + 32)).toNat = c.toNat + 32 :=
      char_toNat_ofNat _ (by omega)
    rw [h1]
    rw [lowerChar, if_neg (by rw [hv]; omega)]
  · have h1 : lowerChar c = c := by rw [lowerChar, if_neg h]
    rw [h1]
    exact h1

theorem pyLower_idem (s : String) : pyLower (pyLower s) = pyLower s := by
  have hcomp : lowerChar ∘ lowerChar = lowerChar := funext lowerChar_idem
  show String.mk ((String.mk (s.data.map lowerChar)).data.map lowerChar) = _
  rw [show (String.mk (s.data.map lowerChar)).data = s.data.map lowerChar from rfl]
  rw [List.map_map, hcomp]
  rfl

theorem is_video_file_lower (f : String) :
    is_video_file (pyLower f) = is_video_file f := by
  rw [is_video_file, is_video_file]
  rw [pyLower_idem]


theorem srtUpdate_apply_ne (fs : FS) (path p : String) (segs : Option (List Segment))
    (h : p ≠ path) : srtUpdate fs path segs p = fs p := by
  cases segs with
  | some ss => exact fsWrite_other fs path (render ss) p h
  | none => rfl

theorem srtUpdate_apply_none (fs : FS) (path p : String) (segs : Option (List Segment))
    (h : srtUpdate fs path segs p = none) : fs p = none := by
  cases segs with
  | none => exact h
  | some ss =>
    by_cases hp : p = path
    · rw [hp] at h
      rw [show srtUpdate fs path (some ss) path = some (render ss) from
        fsWrite_self fs path (render ss)] at h
      cases h
    · rw [srtUpdate_apply_ne fs path p (some ss) hp] at h
      exact h

theorem fsWrite_none (fs : FS) (k v p : String) (h : fsWrite fs k v p = none) :
    fs p = none ∧ p ≠ k := by
  by_cases hp : p = k
  · rw [hp, fsWrite_self] at h
    cases h
  · rw [fsWrite_other fs k v p hp] at h
    exact ⟨h, hp⟩

theorem fsRemove_none (fs : FS) (k p : String) (h : fsRemove fs k p = none) :
    fs p = none ∨ p = k := by
  by_cases hp : p = k
  · exact Or.inr hp
  · rw [fsRemove_other fs k p hp] at h
    exact Or.inl h

theorem noKeep_fs_idem (fs : FS) (tmp txt srt text : String)
    (segs : Option (List Segment)) :
    srtUpdate (fsWrite (fsRemove
        (srtUpdate (fsWrite (fsRemove fs tmp) txt text) srt segs) tmp) txt text)
      srt segs
      = srtUpdate (fsWrite (fsRemove fs tmp) txt text) srt segs := by
  cases segs <;>
    (funext p
     simp only [srtUpdate, fsWrite, fsRemove]
     split_ifs <;> simp_all)

theorem keep_fs_idem (fs : FS) (wav txt srt audio text : String)
    (segs : Option (List Segment)) :
    srtUpdate (fsWrite (fsWrite
        (srtUpdate (fsWrite (fsWrite fs wav audio) txt text) srt segs) wav audio)
        txt text) srt segs
      = srtUpdate (fsWrite (fsWrite fs wav audio) txt text) srt segs := by
  cases segs <;>
    (funext p
     simp only [srtUpdate, fsWrite, fsRemove]
     split_ifs <;> simp_all)

end VT

open VT

/-- C5: for every non-negative fractional-seconds value, `_format_timestamp`
emits a string of the shape `two-or-more digits, ':', two digits, ':', two
digits, ',', three digits` with zero-padded fields; the encoded value is the
input truncated (not rounded) to whole milliseconds, so reparsing the output
lands within 1ms of the input; and `3725.4567` formats to `01:02:05,456`. -/
theorem C5_format_timestamp_shape_truncation_roundtrip (s : ℚ) (hs : 0 ≤ s) :
    isTimestampShape (format_timestamp s).data = true ∧
    parseTimestamp (format_timestamp s).data = (⌊s * 1000⌋ : ℚ) / 1000 ∧
    |parseTimestamp (format_timestamp s).data - s| < 1 / 1000 ∧
    format_timestamp (37254567 / 10000) = "01:02:05,456" := by
  obtain ⟨H, M, S, MS, hM, hS, hMS, hfmt, hval⟩ := format_components s hs
  have hdata : (format_timestamp s).data = timestampChars H M S MS := by
    rw [hfmt]
  have hparse : parseTimestamp (format_timestamp s).data = (⌊s * 1000⌋ : ℚ) / 1000 := by
    rw [hdata, parseTimestamp_timestampChars H M S MS hM hS hMS, hval]
  refine ⟨?_, hparse, ?_, format_timestamp_example⟩
  · rw [hdata]
    exact isTimestampShape_timestampChars H M S MS hM hS hMS
  · rw [hparse]
    have h1 : (⌊s * 1000⌋ : ℚ) ≤ s * 1000 := Int.floor_le _
    have h2 : s * 1000 < (⌊s * 1000⌋ : ℚ) + 1 := Int.lt_floor_add_one _
    have h3 : (⌊s * 1000⌋ : ℚ) / 1000 - s = ((⌊s * 1000⌋ : ℚ) - s * 1000) / 1000 := by
      ring
    rw [h3, abs_div]
    have h4 : |(⌊s * 1000⌋ : ℚ) - s * 1000| < 1 := by
      rw [abs_sub_comm, abs_of_nonneg (by linarith)]
      linarith
    rw [abs_of_nonneg (show (0:ℚ) ≤ 1000 by norm_num)]
    linarith

/-- Witness for C5, instantiated at the concrete input 0. -/
theorem C5_format_timestamp_shape_truncation_roundtrip_witness :
    (0:ℚ) ≤ 0 ∧
    (isTimestampShape (format_timestamp 0).data = true ∧
     parseTimestamp (format_timestamp 0).data = (⌊(0:ℚ) * 1000⌋ : ℚ) / 1000 ∧
     |parseTimestamp (format_timestamp 0).data - 0| < 1 / 1000 ∧
     format_timestamp (37254567 / 10000) = "01:02:05,456") :=
  ⟨le_refl 0, C5_format_timestamp_shape_truncation_roundtrip 0 (le_refl 0)⟩

/-- C6: `render` emits for each segment, in order and starting at index 1, the
1-based index line, the timing line, the trimmed segment text, and a blank
separator; the empty sequence renders to the empty string, and the single
segment `(start 0, end 1.5, text " hi ")` renders to exactly
`1\n00:00:00,000 --> 00:00:01,500\nhi\n\n`. -/
theorem C6_render_blocks (segs : List Segment) :
    render segs
      = strConcat (List.ofFn fun i : Fin segs.length =>
          srt_block (i.1 + 1) (segs.get i)) ∧
    render [] = "" ∧
    render [⟨0, 3/2, " hi "⟩]
      = "1\n00:00:00,000 --> 00:00:01,500\nhi\n\n" := by
  refine ⟨renderFrom_eq_strConcat segs 1, rfl, ?_⟩
  calc render [⟨0, 3/2, " hi "⟩]
      = natStr 1 ++ "\n" ++ format_timestamp 0 ++ " --> " ++
          format_timestamp (3/2) ++ "\n" ++ pyStrip " hi " ++ "\n\n" ++ "" := rfl
  _ = "1\n00:00:00,000 --> 00:00:01,500\nhi\n\n" := by
      rw [format_timestamp_zero, format_timestamp_three_halves]
      decide

/-- C1 counterexample: `keepAudio=false`, extraction has produced the
temporary audio file, and the inference step fails — the pipeline propagates
the inference error while the temporary audio file is still on disk, so the
claimed every-exit-path cleanup does not hold. -/
theorem C1_counterexample_temp_file_leaks_on_inference_failure :
    (transcribe_video envB fsEmpty "/v/a.mp4" none none false).2
        = .error PyError.inferenceError ∧
    (transcribe_video envB fsEmpty "/v/a.mp4" none none false).1 (tmpPath envB)
        = some (audioContent "/v/a.mp4") :=
  ⟨rfl, rfl⟩

/-- C1 amended: with `keepAudio=false` the temporary audio file is deleted
before returning only on the success path (provided the temporary path is not
also one of the two output paths, which are written after the deletion); when
the inference step fails, the error propagates without cleanup and the
extracted temporary file remains on disk. -/
theorem C1_amended_cleanup_only_on_success (env : Env) (fs : FS) (vp : String)
    (od lang : Option String)
    (hff : env.ffmpegRun vp (tmpPath env) = .success)
    (htxt : tmpPath env ≠ txtPath (resolveOutDir od vp) (videoName vp))
    (hsrt : tmpPath env ≠ srtPath (resolveOutDir od vp) (videoName vp)) :
    (∀ r, transcribe_audio env (tmpPath env) lang = .ok r →
      (transcribe_video env fs vp od lang false).1 (tmpPath env) = none) ∧
    (∀ e, transcribe_audio env (tmpPath env) lang = .error e →
      (transcribe_video env fs vp od lang false).1 (tmpPath env)
        = some (audioContent vp)) := by
  constructor
  · intro r ht
    simp only [transcribe_video_noKeep_ok env fs vp od lang r hff ht]
    rw [srtUpdate_apply_ne _ _ _ _ hsrt]
    rw [fsWrite_other _ _ _ _ htxt]
    exact fsRemove_self fs (tmpPath env)
  · intro e ht
    simp only [transcribe_video_noKeep_inferFail env fs vp od lang e hff ht]
    exact fsWrite_self fs (tmpPath env) (audioContent vp)

/-- Witness for the amended C1 at a concrete environment. -/
theorem C1_amended_cleanup_only_on_success_witness :
    envA.ffmpegRun "/v/a.mp4" (tmpPath envA) = .success ∧
    tmpPath envA ≠ txtPath (resolveOutDir none "/v/a.mp4") (videoName "/v/a.mp4") ∧
    tmpPath envA ≠ srtPath (resolveOutDir none "/v/a.mp4") (videoName "/v/a.mp4") ∧
    ((∀ r, transcribe_audio envA (tmpPath envA) none = .ok r →
        (transcribe_video envA fsEmpty "/v/a.mp4" none none false).1 (tmpPath envA)
          = none) ∧
     (∀ e, transcribe_audio envA (tmpPath envA) none = .error e →
        (transcribe_video envA fsEmpty "/v/a.mp4" none none false).1 (tmpPath envA)
          = some (audioContent "/v/a.mp4"))) :=
  ⟨rfl, by decide, by decide,
    C1_amended_cleanup_only_on_success envA fsEmpty "/v/a.mp4" none none rfl
      (by decide) (by decide)⟩

/-- C2 counterexample: one video file is discovered and its processing fails,
yet the returned sequence is empty — the Orchestrator does not return one
outcome per discovered file (failures are only logged, not returned). -/
theorem C2_counterexample_failures_not_in_returned_list :
    (discover_videos envE "/d").length = 1 ∧
    (transcribe_directory envE fsEmpty "/d" none none false).2 = [] :=
  ⟨rfl, rfl⟩

/-- C2 amended: the Orchestrator returns exactly the successful transcription
paths, in discovery order (failures are caught locally, logged, and skipped,
so they never abort the remaining items); the returned list has N−K entries
for N discovered files of which K fail; and zero discovered files yield an
empty list, not an error. -/
theorem C2_amended_returns_success_paths (env : Env) (fs : FS) (dir : String)
    (od lang : Option String) (keep : Bool) :
    (transcribe_directory env fs dir od lang keep).2
      = (discover_videos env dir).filterMap
          (itemResult env (resolveBatchOutDir od dir) lang keep) ∧
    (transcribe_directory env fs dir od lang keep).2.length
        + (discover_videos env dir).countP
            (fun vp2 => (itemResult env (resolveBatchOutDir od dir) lang keep vp2).isNone)
      = (discover_videos env dir).length ∧
    (discover_videos env dir = [] →
      (transcribe_directory env fs dir od lang keep).2 = []) := by
  refine ⟨transcribe_directory_paths env fs dir od lang keep, ?_, ?_⟩
  · rw [transcribe_directory_paths env fs dir od lang keep]
    exact length_filterMap_add_countP _ _
  · intro he
    rw [transcribe_directory_paths env fs dir od lang keep, he]
    rfl

/-- Witness for the amended C2 at a concrete one-file batch whose only item
fails. -/
theorem C2_amended_returns_success_paths_witness :
    (transcribe_directory envE fsEmpty "/d" none none false).2
      = (discover_videos envE "/d").filterMap
          (itemResult envE (resolveBatchOutDir none "/d") none false) ∧
    (transcribe_directory envE fsEmpty "/d" none none false).2.length
        + (discover_videos envE "/d").countP
            (fun vp2 => (itemResult envE (resolveBatchOutDir none "/d") none false vp2).isNone)
      = (discover_videos envE "/d").length ∧
    (discover_videos envE "/d" = [] →
      (transcribe_directory envE fsEmpty "/d" none none false).2 = []) :=
  C2_amended_returns_success_paths envE fsEmpty "/d" none none false

/-- C3 counterexample: the model reports a present but empty segment list;
the run succeeds and an (empty) subtitle file is written, although the claim
says no subtitle file may be written for an empty segment sequence. -/
theorem C3_counterexample_empty_segments_write_srt :
    (transcribe_video envC fsEmpty "/v/a.mp4" none none false).2 = .ok "/v/a.txt" ∧
    (transcribe_video envC fsEmpty "/v/a.mp4" none none false).1 "/v/a.srt"
      = some "" :=
  ⟨rfl, rfl⟩

/-- C3 amended: on a successful run the full-text file always exists with the
model's text, and the subtitle file is written (with the rendered text) if and
only if the `"segments"` key is present in the result — in particular a
present-but-empty segment list produces an empty subtitle file, while an
absent key leaves the subtitle path untouched. -/
theorem C3_amended_srt_iff_segments_key (env : Env) (fs : FS) (vp : String)
    (od lang : Option String) (keep : Bool) (r : TResult)
    (hff : env.ffmpegRun vp (audioDest env od vp keep) = .success)
    (ht : transcribe_audio env (audioDest env od vp keep) lang = .ok r)
    (hsrt : keep = false →
      tmpPath env ≠ srtPath (resolveOutDir od vp) (videoName vp)) :
    (transcribe_video env fs vp od lang keep).1
        (txtPath (resolveOutDir od vp) (videoName vp)) = some r.text ∧
    (transcribe_video env fs vp od lang keep).1
        (srtPath (resolveOutDir od vp) (videoName vp))
      = match r.segments with
        | some segs => some (render segs)
        | none => fs (srtPath (resolveOutDir od vp) (videoName vp)) := by
  cases keep
  · have hff' : env.ffmpegRun vp (tmpPath env) = .success := hff
    have ht' : transcribe_audio env (tmpPath env) lang = .ok r := ht
    simp only [transcribe_video_noKeep_ok env fs vp od lang r hff' ht']
    constructor
    · rw [srtUpdate_apply_ne _ _ _ _ (txtPath_ne_srtPath _ _)]
      exact fsWrite_self _ _ _
    · cases hseg : r.segments with
      | some segs =>
        exact fsWrite_self _ _ _
      | none =>
        show fsWrite (fsRemove fs (tmpPath env))
            (txtPath (resolveOutDir od vp) (videoName vp)) r.text
            (srtPath (resolveOutDir od vp) (videoName vp))
          = fs (srtPath (resolveOutDir od vp) (videoName vp))
        rw [fsWrite_other _ _ _ _ (Ne.symm (txtPath_ne_srtPath _ _))]
        exact fsRemove_other fs (tmpPath env) _ (Ne.symm (hsrt rfl))
  · have hff' : env.ffmpegRun vp (wavPath (resolveOutDir od vp) (videoName vp))
        = .success := hff
    have ht' : transcribe_audio env
        (wavPath (resolveOutDir od vp) (videoName vp)) lang = .ok r := ht
    simp only [transcribe_video_keep_ok env fs vp od lang r hff' ht']
    constructor
    · rw [srtUpdate_apply_ne _ _ _ _ (txtPath_ne_srtPath _ _)]
      exact fsWrite_self _ _ _
    · cases hseg : r.segments with
      | some segs =>
        exact fsWrite_self _ _ _
      | none =>
        show fsWrite (fsWrite fs (wavPath (resolveOutDir od vp) (videoName vp))
              (audioContent vp))
            (txtPath (resolveOutDir od vp) (videoName vp)) r.text
            (srtPath (resolveOutDir od vp) (videoName vp))
          = fs (srtPath (resolveOutDir od vp) (videoName vp))
        rw [fsWrite_other _ _ _ _ (Ne.symm (txtPath_ne_srtPath _ _))]
        exact fsWrite_other _ _ _ _ (Ne.symm (wavPath_ne_srtPath _ _))

/-- Witness for the amended C3: a concrete successful run whose result has a
present-but-empty segment list. -/
theorem C3_amended_srt_iff_segments_key_witness :
    transcribe_audio envC (audioDest envC none "/v/a.mp4" false) none
        = .ok { text := "T", segments := some [] } ∧
    ((transcribe_video envC fsEmpty "/v/a.mp4" none none false).1
        (txtPath (resolveOutDir none "/v/a.mp4") (videoName "/v/a.mp4"))
        = some ({ text := "T", segments := some [] } : TResult).text ∧
     (transcribe_video envC fsEmpty "/v/a.mp4" none none false).1
        (srtPath (resolveOutDir none "/v/a.mp4") (videoName "/v/a.mp4"))
      = match ({ text := "T", segments := some [] } : TResult).segments with
        | some segs => some (render segs)
        | none => fsEmpty (srtPath (resolveOutDir none "/v/a.mp4") (videoName "/v/a.mp4"))) :=
  ⟨rfl, C3_amended_srt_iff_segments_key envC fsEmpty "/v/a.mp4" none none false
      { text := "T", segments := some [] } rfl rfl (fun _ => by decide)⟩

/-- C4 counterexample: when the decoder process fails to launch, the error
propagates uncaught and the `mkstemp`-created destination file remains on disk
— an orphaned file at the destination path, contrary to the claim. -/
theorem C4_counterexample_launch_failure_orphans_temp_file :
    (extract_audio envD fsEmpty "/v/a.mp4" none).2 = .error PyError.fileNotFoundError ∧
    (extract_audio envD fsEmpty "/v/a.mp4" none).1 (tmpPath envD) = some "" :=
  ⟨rfl, rfl⟩

/-- C4 amended: on a non-zero decoder exit the destination file (pre-existing
or partially written) is deleted before the `CalledProcessError` propagates;
but on a process-launch failure the `FileNotFoundError` propagates without any
cleanup, leaving the `mkstemp`-created empty file at the temporary destination. -/
theorem C4_amended_cleanup_on_exit_not_launch (env : Env) (fs : FS)
    (vp dest : String) (hw : Bool)
    (hexit : env.ffmpegRun vp dest = .exitFail hw)
    (hlaunch : env.ffmpegRun vp (tmpPath env) = .launchFail) :
    extract_audio env fs vp (some dest)
        = (fsRemove fs dest, .error .calledProcessError) ∧
    extract_audio env fs vp none
        = (fsWrite fs (tmpPath env) "", .error .fileNotFoundError) :=
  ⟨extract_audio_some_exitFail env fs vp dest hw hexit,
   extract_audio_none_launchFail env fs vp hlaunch⟩

/-- Witness for the amended C4 at a concrete environment whose decoder exits
non-zero for the explicit destination and fails to launch for the temporary
one. -/
theorem C4_amended_cleanup_on_exit_not_launch_witness :
    envF.ffmpegRun "/v/a.mp4" "/out/a.wav" = .exitFail true ∧
    envF.ffmpegRun "/v/a.mp4" (tmpPath envF) = .launchFail ∧
    (extract_audio envF fsEmpty "/v/a.mp4" (some "/out/a.wav")
        = (fsRemove fsEmpty "/out/a.wav", .error .calledProcessError) ∧
     extract_audio envF fsEmpty "/v/a.mp4" none
        = (fsWrite fsEmpty (tmpPath envF) "", .error .fileNotFoundError)) :=
  ⟨rfl, rfl,
    C4_amended_cleanup_on_exit_not_launch envF fsEmpty "/v/a.mp4" "/out/a.wav"
      true rfl rfl⟩

/-- C7: re-running the pipeline on the same video with the same output
directory succeeds again with the same returned path and leaves the filesystem
exactly as after the first run — outputs are overwritten, never duplicated,
and no error is raised. -/
theorem C7_rerun_overwrites_idempotent (env : Env) (fs : FS) (vp : String)
    (od lang : Option String) (keep : Bool) (r : TResult)
    (hff : env.ffmpegRun vp (audioDest env od vp keep) = .success)
    (ht : transcribe_audio env (audioDest env od vp keep) lang = .ok r) :
    (transcribe_video env fs vp od lang keep).2
        = .ok (txtPath (resolveOutDir od vp) (videoName vp)) ∧
    transcribe_video env (transcribe_video env fs vp od lang keep).1 vp od lang keep
      = ((transcribe_video env fs vp od lang keep).1,
         .ok (txtPath (resolveOutDir od vp) (videoName vp))) := by
  cases keep
  · have hff' : env.ffmpegRun vp (tmpPath env) = .success := hff
    have ht' : transcribe_audio env (tmpPath env) lang = .ok r := ht
    have h1 := transcribe_video_noKeep_ok env fs vp od lang r hff' ht'
    have h2 := transcribe_video_noKeep_ok env
      (srtUpdate (fsWrite (fsRemove fs (tmpPath env))
        (txtPath (resolveOutDir od vp) (videoName vp)) r.text)
        (srtPath (resolveOutDir od vp) (videoName vp)) r.segments) vp od lang r hff' ht'
    constructor
    · simp only [h1]
    · simp only [h1]
      rw [h2, noKeep_fs_idem]
  · have hff' : env.ffmpegRun vp (wavPath (resolveOutDir od vp) (videoName vp))
        = .success := hff
    have ht' : transcribe_audio env
        (wavPath (resolveOutDir od vp) (videoName vp)) lang = .ok r := ht
    have h1 := transcribe_video_keep_ok env fs vp od lang r hff' ht'
    have h2 := transcribe_video_keep_ok env
      (srtUpdate (fsWrite (fsWrite fs (wavPath (resolveOutDir od vp) (videoName vp))
          (audioContent vp))
        (txtPath (resolveOutDir od vp) (videoName vp)) r.text)
        (srtPath (resolveOutDir od vp) (videoName vp)) r.segments) vp od lang r hff' ht'
    constructor
    · simp only [h1]
    · simp only [h1]
      rw [h2, keep_fs_idem]

/-- Witness for C7 at a concrete successful environment. -/
theorem C7_rerun_overwrites_idempotent_witness :
    envA.ffmpegRun "/v/a.mp4" (audioDest envA none "/v/a.mp4" false) = .success ∧
    transcribe_audio envA (audioDest envA none "/v/a.mp4" false) none
        = .ok { text := "T", segments := none } ∧
    ((transcribe_video envA fsEmpty "/v/a.mp4" none none false).2
        = .ok (txtPath (resolveOutDir none "/v/a.mp4") (videoName "/v/a.mp4")) ∧
     transcribe_video envA (transcribe_video envA fsEmpty "/v/a.mp4" none none false).1
         "/v/a.mp4" none none false
       = ((transcribe_video envA fsEmpty "/v/a.mp4" none none false).1,
          .ok (txtPath (resolveOutDir none "/v/a.mp4") (videoName "/v/a.mp4")))) :=
  ⟨rfl, rfl,
    C7_rerun_overwrites_idempotent envA fsEmpty "/v/a.mp4" none none false
      { text := "T", segments := none } rfl rfl⟩

/-- C8: a `keepAudio=false` pipeline run deletes a file only when its path is
the `mkstemp` path, which starts with the system temporary directory; any path
missing afterwards was either already absent or is that temporary path — no
caller-supplied or output-directory file is ever deleted. -/
theorem C8_cleanup_deletes_only_under_tempdir (env : Env) (fs : FS) (vp : String)
    (od lang : Option String) (p : String)
    (hdel : (transcribe_video env fs vp od lang false).1 p = none) :
    fs p = none ∨ (p = tmpPath env ∧ pyStartsWith p env.tempDir = true) := by
  rcases hff : env.ffmpegRun vp (tmpPath env) with _ | hw | _
  · cases ht : transcribe_audio env (tmpPath env) lang with
    | error e =>
      simp only [transcribe_video_noKeep_inferFail env fs vp od lang e hff ht] at hdel
      exact Or.inl (fsWrite_none _ _ _ _ hdel).1
    | ok r =>
      simp only [transcribe_video_noKeep_ok env fs vp od lang r hff ht] at hdel
      have h2 := srtUpdate_apply_none _ _ _ _ hdel
      have h3 := (fsWrite_none _ _ _ _ h2).1
      rcases fsRemove_none _ _ _ h3 with h | h
      · exact Or.inl h
      · subst h
        exact Or.inr ⟨rfl, tmpPath_startsWith env⟩
  · simp only [transcribe_video_noKeep_exitFail env fs vp od lang hw hff] at hdel
    rcases fsRemove_none _ _ _ hdel with h | h
    · exact Or.inl h
    · subst h
      exact Or.inr ⟨rfl, tmpPath_startsWith env⟩
  · simp only [transcribe_video_noKeep_launchFail env fs vp od lang hff] at hdel
    exact Or.inl (fsWrite_none _ _ _ _ hdel).1

/-- Witness for C8: the successful concrete run deleted exactly the temporary
audio path, which lies under the temporary directory. -/
theorem C8_cleanup_deletes_only_under_tempdir_witness :
    (transcribe_video envA fsEmpty "/v/a.mp4" none none false).1 (tmpPath envA)
        = none ∧
    (fsEmpty (tmpPath envA) = none ∨
      (tmpPath envA = tmpPath envA ∧ pyStartsWith (tmpPath envA) envA.tempDir = true)) :=
  ⟨rfl, C8_cleanup_deletes_only_under_tempdir envA fsEmpty "/v/a.mp4" none none
    (tmpPath envA) rfl⟩

/-- C9: a file name is recognized as a video exactly when its lowercased form
ends with one of the seven supported extensions; recognition is therefore
case-insensitive (invariant under lowercasing), and upper- or mixed-case
extensions such as `.MP4` are accepted. -/
theorem C9_recognition_case_insensitive (f : String) :
    (is_video_file f = true ↔
      ∃ ext ∈ supported_extensions, pyEndsWith (pyLower f) ext = true) ∧
    is_video_file (pyLower f) = is_video_file f ∧
    is_video_file "Movie.MP4" = true ∧
    is_video_file "movie.mkv" = true ∧
    is_video_file "movie.txt" = false := by
  refine ⟨?_, is_video_file_lower f, by decide, by decide, by decide⟩
  rw [is_video_file, List.any_eq_true]

/-- C10: a successful `transcribe_video` returns exactly the full-text path
`<outputDir>/<videoName>.txt`, and `transcribe_directory` returns exactly the
successful items' `.txt` paths, in discovery order. -/
theorem C10_returned_paths (env : Env) (fs fs2 : FS) (dir vp : String)
    (od lang : Option String) (keep : Bool) :
    (∀ p, (transcribe_video env fs vp od lang keep).2 = .ok p →
        p = txtPath (resolveOutDir od vp) (videoName vp)) ∧
    (transcribe_directory env fs2 dir od lang keep).2
      = (discover_videos env dir).filterMap
          (itemResult env (resolveBatchOutDir od dir) lang keep) :=
  ⟨fun p h => transcribe_video_ok_path env fs vp od lang keep p h,
   transcribe_directory_paths env fs2 dir od lang keep⟩

/-- Witness for C10 at a concrete successful run. -/
theorem C10_returned_paths_witness :
    (transcribe_video envA fsEmpty "/v/a.mp4" none none false).2 = .ok "/v/a.txt" ∧
    "/v/a.txt" = txtPath (resolveOutDir none "/v/a.mp4") (videoName "/v/a.mp4") :=
  ⟨rfl,
    (C10_returned_paths envA fsEmpty fsEmpty "/d" "/v/a.mp4" none none false).1
      "/v/a.txt" rfl⟩
